import Mathlib

/-!
Shallow embedding of `fetch_messages.py` (Instagram-chat-retreiver):
the pagination and ordering engine — timestamp parsing, message text
extraction, message normalization, the one-pass streaming traversal
(`iter_conversation_pages` / `iter_enriched_messages`) and the cached
random-access navigator (`ConversationPager.fetch_page`) — together with
theorems checking the specification's claims against it.

Python values flowing through the engine are JSON-like; we embed them as
the inductive `Val`.  Python truthiness, `dict.get`, and code-point
string comparison are modelled explicitly.  The remote HTTP layer is
abstracted as a `Server` function from the request cursor to one of:
a transport error (`requests.RequestException`, which includes non-2xx
responses via `raise_for_status`), a non-JSON body, or a JSON payload.
-/

/-- JSON-like runtime values (the shapes `fetch_messages.py` manipulates). -/
inductive Val where
  | null
  | bool (b : Bool)
  | num (n : Int)
  | str (s : String)
  | arr (items : List Val)
  | obj (fields : List (String × Val))

/-- Python truthiness of a `Val` (`if not value`, `if page_limit`, ...). -/
def truthy : Val → Bool
  | .null => false
  | .bool b => b
  | .num n => n != 0
  | .str s => s != ""
  | .arr l => !l.isEmpty
  | .obj l => !l.isEmpty

/-- First binding for a key in an association list (Python dicts have unique
keys; first-match lookup models them faithfully, with cons as overwrite). -/
def lookupField : List (String × Val) → String → Option Val
  | [], _ => none
  | (k, v) :: rest, key => if k = key then some v else lookupField rest key

/-- `d.get(key)` on a value known to be a mapping; `none` when the value is
not a mapping (call sites that would raise `AttributeError` in Python use
`getAttr` below instead, which makes the raise visible). -/
def Val.get? (v : Val) (k : String) : Option Val :=
  match v with
  | .obj fields => lookupField fields k
  | _ => none

/-- `value.get(key)` where `value` may not be a mapping: the outer `none`
is Python's uncaught `AttributeError`; the inner option is `dict.get`'s
missing-key `None`. -/
def getAttr (v : Val) (k : String) : Option (Option Val) :=
  match v with
  | .obj fields => some (lookupField fields k)
  | _ => none

/-! ## Timestamp parsing (`parse_created_time`, line 19)

`datetime.strptime(value, "%Y-%m-%dT%H:%M:%S%z")` on the single fixed
format, compared as aware datetimes, i.e. by UTC instant.  We embed an
aware datetime as its signed count of seconds since the Unix epoch
(`EPOCH = datetime(1970,1,1, tzinfo=utc)` is `0`), which models Python's
datetime comparison exactly.  The model accepts the canonical
`YYYY-MM-DDTHH:MM:SS±HHMM` instances of the format (4-digit year,
2-digit fields, valid calendar date, offset hours ≤ 23 and minutes
≤ 59); every string outside the format parses to `none`, as in the
source where `strptime` raises `ValueError` and the function returns
`None`. -/

def charDigit (c : Char) : Nat := c.toNat - 48

def isDigitCh (c : Char) : Bool := 48 ≤ c.toNat && c.toNat ≤ 57

def isLeapYear (y : Int) : Bool := (y % 4 == 0 && y % 100 != 0) || y % 400 == 0

def daysInMonth (y : Int) (m : Nat) : Nat :=
  match m with
  | 1 => 31
  | 2 => if isLeapYear y then 29 else 28
  | 3 => 31
  | 4 => 30
  | 5 => 31
  | 6 => 30
  | 7 => 31
  | 8 => 31
  | 9 => 30
  | 10 => 31
  | 11 => 30
  | 12 => 31
  | _ => 0

/-- Days from 1970-01-01 to the civil date y-m-d (proleptic Gregorian). -/
def daysFromCivil (y : Int) (m d : Nat) : Int :=
  let yAdj : Int := if m ≤ 2 then y - 1 else y
  let era : Int := (if 0 ≤ yAdj then yAdj else yAdj - 399) / 400
  let yoe : Int := yAdj - era * 400
  let mp : Int := if 2 < m then (m : Int) - 3 else (m : Int) + 9
  let doy : Int := (153 * mp + 2) / 5 + (d : Int) - 1
  let doe : Int := yoe * 365 + yoe / 4 - yoe / 100 + doy
  era * 146097 + doe - 719468

/-- Parse `YYYY-MM-DDTHH:MM:SS±HHMM` to seconds since the Unix epoch. -/
def parseTimestamp (s : String) : Option Int :=
  match s.data with
  | [y1, y2, y3, y4, '-', o1, o2, '-', d1, d2, 'T',
     h1, h2, ':', n1, n2, ':', c1, c2, sg, z1, z2, z3, z4] =>
    if isDigitCh y1 && isDigitCh y2 && isDigitCh y3 && isDigitCh y4 &&
       isDigitCh o1 && isDigitCh o2 && isDigitCh d1 && isDigitCh d2 &&
       isDigitCh h1 && isDigitCh h2 && isDigitCh n1 && isDigitCh n2 &&
       isDigitCh c1 && isDigitCh c2 && isDigitCh z1 && isDigitCh z2 &&
       isDigitCh z3 && isDigitCh z4 && (sg == '+' || sg == '-') then
      let y : Int := (charDigit y1 * 1000 + charDigit y2 * 100 +
                      charDigit y3 * 10 + charDigit y4 : Nat)
      let mo : Nat := charDigit o1 * 10 + charDigit o2
      let da : Nat := charDigit d1 * 10 + charDigit d2
      let ho : Nat := charDigit h1 * 10 + charDigit h2
      let mi : Nat := charDigit n1 * 10 + charDigit n2
      let se : Nat := charDigit c1 * 10 + charDigit c2
      let zh : Nat := charDigit z1 * 10 + charDigit z2
      let zm : Nat := charDigit z3 * 10 + charDigit z4
      if 1 ≤ mo && mo ≤ 12 && 1 ≤ da && da ≤ daysInMonth y mo &&
         ho ≤ 23 && mi ≤ 59 && se ≤ 59 && zh ≤ 23 && zm ≤ 59 then
        let wall : Int :=
          daysFromCivil y mo da * 86400 + (ho : Int) * 3600 +
            (mi : Int) * 60 + (se : Int)
        let off : Int := (zh : Int) * 3600 + (zm : Int) * 60
        some (if sg == '-' then wall + off else wall - off)
      else none
    else none
  | _ => none

/-- `EPOCH = datetime(1970, 1, 1, tzinfo=timezone.utc)` (line 16), as
seconds since the Unix epoch. -/
def EPOCH : Int := 0

/-- `parse_created_time` (lines 19-26): `None`/empty input gives `None`;
otherwise `strptime` with the single fixed format, `None` on failure.
(For a present but non-string truthy `created_time` Python would raise
`TypeError`; no claim touches that shape, and call sites feed it the
string field via `createdTimeStr`.) -/
def parse_created_time (value : Option String) : Option Int :=
  match value with
  | none => none
  | some s => if s = "" then none else parseTimestamp s

/-- The `created_time` field of a message as the optional string
`parse_created_time` receives: absent or falsy values become `none`
(Python's `if not value` branch). -/
def createdTimeStr (msg : Val) : Option String :=
  match msg.get? "created_time" with
  | some (.str s) => some s
  | _ => none

/-- The `id` field as the string used in the sort key default
`msg.get("id", "")` (lines 145-146). -/
def idStr (msg : Val) : String :=
  match msg.get? "id" with
  | some (.str s) => s
  | _ => ""

/-! ## Ordering key (lines 143-146 and 237-240)

`key = lambda msg: (parse_created_time(msg.get("created_time")) or EPOCH,
msg.get("id", ""))`, compared as Python tuples: timestamp first, then the
identifier by code points. -/

/-- The ordering key of a message: `(timestamp-or-epoch, identifier)`. -/
def orderKey (msg : Val) : Int × String :=
  ((parse_created_time (createdTimeStr msg)).getD EPOCH, idStr msg)

/-- Python string `<`: lexicographic on code points. -/
def ltChars : List Char → List Char → Bool
  | [], [] => false
  | [], _ :: _ => true
  | _ :: _, [] => false
  | a :: as, b :: bs =>
    if a.toNat < b.toNat then true
    else if b.toNat < a.toNat then false
    else ltChars as bs

def strLtB (s t : String) : Bool := ltChars s.data t.data

def strLeB (s t : String) : Bool := !strLtB t s

/-- `≤` on keys, the comparison Python's tuple order induces; a stable
sort with this relation is exactly `list.sort(key=key)`. -/
def keyLe (a b : Int × String) : Bool :=
  if a.1 < b.1 then true
  else if b.1 < a.1 then false
  else strLeB a.2 b.2

/-- Strict key order (`a` sorts strictly before `b`). -/
def keyLt (a b : Int × String) : Bool :=
  if a.1 < b.1 then true
  else if b.1 < a.1 then false
  else strLtB a.2 b.2

/-- Ascending comparison on messages, as passed to `collected.sort(key=key)`
(line 159). -/
def msgLeAsc (a b : Val) : Prop := keyLe (orderKey a) (orderKey b) = true

/-- Descending comparison: `sort(key=key, reverse=True)` (line 174) is the
stable sort that puts `a` before `b` when `key(b) ≤ key(a)`. -/
def msgLeDesc (a b : Val) : Prop := keyLe (orderKey b) (orderKey a) = true

instance : DecidableRel msgLeAsc :=
  fun _ _ => inferInstanceAs (Decidable (_ = true))

instance : DecidableRel msgLeDesc :=
  fun _ _ => inferInstanceAs (Decidable (_ = true))

/-- `collected.sort(key=key)` — Python's Timsort is a stable sort, and any
two stable sorts by the same total preorder produce the same list, so the
structural `insertionSort` models it exactly. -/
def sortAsc (msgs : List Val) : List Val := msgs.insertionSort msgLeAsc

/-- `detailed_page.sort(key=key, reverse=True)`: Python's reverse sort is
the stable sort placing `a` before `b` when `key(b) ≤ key(a)`. -/
def sortDesc (msgs : List Val) : List Val := msgs.insertionSort msgLeDesc

/-! ## Text extraction (`extract_message_text`, lines 29-69) -/

/-- ASCII whitespace, as `str.strip()` removes (Python also strips some
further Unicode whitespace, which no claim exercises). -/
def isSpaceCh (c : Char) : Bool :=
  c.toNat = 32 || c.toNat = 9 || c.toNat = 10 ||
  c.toNat = 11 || c.toNat = 12 || c.toNat = 13

/-- `candidate.strip()`: leading and trailing whitespace removed. -/
def pyStrip (s : String) : String :=
  .mk (((s.data.dropWhile isSpaceCh).reverse.dropWhile isSpaceCh).reverse)

/-- `_from_candidate` (lines 32-37): a string candidate is stripped; a
non-empty result is returned, anything else is `None`. -/
def fromCandidate (candidate : Option Val) : Option String :=
  match candidate with
  | some (.str s) =>
    let text := pyStrip s
    if text ≠ "" then some text else none
  | _ => none

/-- The fixed sub-key probe `for key in ("text", "body", "message")`
applied to a mapping (lines 49-52 and 64-67). -/
def probeSubKeys (m : Val) : Option String :=
  match fromCandidate (m.get? "text") with
  | some t => some t
  | none =>
    match fromCandidate (m.get? "body") with
    | some t => some t
    | none => fromCandidate (m.get? "message")

/-- One attachment entry (lines 57-67): skip non-mappings, try the entry's
own `text`, then its mapping `payload`'s sub-keys. -/
def probeAttachmentItem (item : Val) : Option String :=
  match item with
  | .obj _ =>
    match fromCandidate (item.get? "text") with
    | some t => some t
    | none =>
      match item.get? "payload" with
      | some payload =>
        match payload with
        | .obj _ => probeSubKeys payload
        | _ => none
      | none => none
  | _ => none

/-- First hit over a list of attachment entries. -/
def probeAttachmentList : List Val → Option String
  | [] => none
  | item :: rest =>
    match probeAttachmentItem item with
    | some t => some t
    | none => probeAttachmentList rest

/-- `attachments.get("data", [])` iterated (line 56): a list value yields
its items; iterating a string or mapping yields characters or keys, none
of which is a mapping, so those entries are all skipped — modelled as no
entries.  (A present non-iterable `data` value would raise `TypeError`
in Python; no claim reaches that shape.) -/
def attachmentItems (attachments : Val) : List Val :=
  match attachments.get? "data" with
  | some (.arr items) => items
  | _ => []

/-- `extract_message_text` (lines 29-69): direct `message` field, then the
`text` field (plain string or mapping probed for the fixed sub-keys),
then each attachment entry's `text` or mapping `payload`. -/
def extract_message_text (data : Val) : Option String :=
  match fromCandidate (data.get? "message") with
  | some t => some t
  | none =>
    match data.get? "text" with
    | some (.str s) =>
      (match fromCandidate (some (.str s)) with
       | some t => some t
       | none => extractFromAttachments data)
    | some (.obj fields) =>
      (match probeSubKeys (.obj fields) with
       | some t => some t
       | none => extractFromAttachments data)
    | _ => extractFromAttachments data
where
  extractFromAttachments (data : Val) : Option String :=
    match data.get? "attachments" with
    | some (.obj fields) => probeAttachmentList (attachmentItems (.obj fields))
    | _ => none

/-! ## Normalization (`normalize_message`, lines 179-186) -/

/-- `normalize_message`: non-mappings are rejected; a mapping whose `id`
is missing or falsy is rejected; otherwise a shallow copy of the mapping
is returned (`dict(message)` — the same value in this embedding). -/
def normalize_message (message : Val) : Option Val :=
  match message with
  | .obj fields =>
    match lookupField fields "id" with
    | some idVal => if truthy idVal then some (.obj fields) else none
    | none => none
  | _ => none

/-- The rejection notice (line 184): `"  skipping message without an id"`
is printed exactly when the record is a mapping whose `id` is missing or
falsy — a non-mapping record is rejected with no notice. -/
def emitsSkipNotice (message : Val) : Bool :=
  match message with
  | .obj fields =>
    match lookupField fields "id" with
    | some idVal => !truthy idVal
    | none => true
  | _ => false

/-! ## The page fetch (`fetch_conversation_page`, lines 72-107)

The HTTP transport is abstract: a `Server` maps the request cursor
(`none` = the first page, whose URL is built from the conversation id)
to a transport error, a non-JSON body, or a JSON payload.  The fixed
field-selection parameters of the first request are part of the
abstraction.  `requests` errors — connectivity and, via
`raise_for_status`, non-2xx responses — are one constructor. -/

inductive HttpResult where
  | netErr
  | badJson
  | body (payload : Val)

def Server := Option Val → HttpResult

/-- The outcome of one `fetch_conversation_page` call: `failure` is the
`(None, None)` return; `crash` is an uncaught `AttributeError` raised by
`.get` on a non-mapping payload or `messages` container (lines 102-103);
`success` carries the records list and the raw `paging` value. -/
inductive FetchOutcome where
  | crash
  | failure
  | success (data : List Val) (paging : Val)

/-- `fetch_conversation_page` (lines 89-107): transport or JSON errors
give `(None, None)`; otherwise `container = payload.get("messages",
payload)`, `data = container.get("data", [])` coerced to a list, and
`paging = container.get("paging", {}) or {}`. -/
def fetch_conversation_page (server : Server) (pageUrl : Option Val) : FetchOutcome :=
  match server pageUrl with
  | .netErr => .failure
  | .badJson => .failure
  | .body payload =>
    match getAttr payload "messages" with
    | none => .crash
    | some maybeContainer =>
      let container := maybeContainer.getD payload
      match container with
      | .obj fields =>
        let data :=
          match lookupField fields "data" with
          | some (.arr items) => items
          | _ => []
        let paging :=
          match lookupField fields "paging" with
          | some p => if truthy p then p else .obj []
          | none => .obj []
        .success data paging
      | _ => .crash

/-! ## Streaming traversal (`iter_conversation_pages`, lines 110-136)

The Python generator is a `while True` loop following the server's `next`
cursors; we embed it with an explicit fuel argument.  `StopReason`
records why the loop ended: the page ceiling, a fetch `(None, None)`
failure, a falsy `next` cursor, an uncaught exception (`crash`), or the
artificial `fuelOut` (the loop still running when the fuel is spent —
no real run stops this way, and theorems exclude it). -/

inductive StopReason where
  | ceiling
  | failure
  | noNext
  | crash
  | fuelOut
deriving DecidableEq

/-- One traversal from the cursor `url` with `pageCount` pages already
yielded: returns the `(data, paging)` pairs the generator yields, and
why it stopped.  Mirrors lines 118-136: ceiling check first
(`if page_limit and page_count >= page_limit`), then the fetch, the
yield, `url = paging.get("next")` (an `AttributeError` when `paging` is
a truthy non-mapping), and the falsy-`next` exit. -/
def iterPagesAux (server : Server) (pageLimit : Int) :
    Nat → Option Val → Nat → List (List Val × Val) × StopReason
  | 0, _, _ => ([], .fuelOut)
  | fuel + 1, url, pageCount =>
    if pageLimit ≠ 0 ∧ pageLimit ≤ (pageCount : Int) then ([], .ceiling)
    else
      match fetch_conversation_page server url with
      | .crash => ([], .crash)
      | .failure => ([], .failure)
      | .success data paging =>
        match getAttr paging "next" with
        | none => ([(data, paging)], .crash)
        | some nextVal =>
          let nxt := nextVal.getD .null
          if truthy nxt then
            let rest := iterPagesAux server pageLimit fuel (some nxt) (pageCount + 1)
            ((data, paging) :: rest.1, rest.2)
          else ([(data, paging)], .noNext)

/-- `iter_conversation_pages(conversation_id, token, page_limit)`:
the traversal starts at the first page (`url = None`) with zero pages
yielded. -/
def iter_conversation_pages (server : Server) (pageLimit : Int) (fuel : Nat) :
    List (List Val × Val) × StopReason :=
  iterPagesAux server pageLimit fuel none 0

/-! ## Enriched message stream (`iter_enriched_messages`, lines 139-176) -/

/-- The normalized messages of one page (lines 153-156 and 168-171):
`normalize_message` applied to each record, rejections skipped. -/
def normalizePage (pageData : List Val) : List Val :=
  pageData.filterMap normalize_message

/-- Descending mode's per-page processing (lines 167-176), folded over
the yielded pages: each page is normalized, an empty result is skipped
(`continue`), a non-empty one is sorted descending and yielded. -/
def descPagesOutput : List (List Val × Val) → List Val
  | [] => []
  | (data, _) :: rest =>
    let detailed := normalizePage data
    if detailed.isEmpty then descPagesOutput rest
    else sortDesc detailed ++ descPagesOutput rest

/-- `iter_enriched_messages` (lines 139-176): in `"asc"` mode every page
is drained first, all normalized messages are collected, and the whole
collection is sorted once ascending (an empty collection yields
nothing, which coincides with yielding the empty sorted list); in any
other mode pages are processed one at a time, descending within the
page.  The yielded messages are paired with the traversal's stop
reason; when the traversal crashes (or fuel runs out) in `"asc"` mode
the exception propagates before anything is yielded, so the stream is
empty. -/
def iter_enriched_messages (server : Server) (order : String)
    (pageLimit : Int) (fuel : Nat) : List Val × StopReason :=
  let pages := iter_conversation_pages server pageLimit fuel
  if order = "asc" then
    match pages.2 with
    | .crash => ([], .crash)
    | .fuelOut => ([], .fuelOut)
    | r =>
      let collected := pages.1.foldl (fun acc page => acc ++ normalizePage page.1) []
      (sortAsc collected, r)
  else
    (descPagesOutput pages.1, pages.2)

/-! ## Cached random-access navigation (`ConversationPager`, lines 189-252)

`fetch_page` takes `Optional[str]` cursors (the annotation on line 215);
the cache is keyed by that request cursor.  We carry an extra `calls`
counter — not a field of the Python object — counting how many times the
underlying `fetch_conversation_page` has been invoked over the
instance's lifetime, to state the at-most-one-fetch claims. -/

structure ConversationPage where
  identifier : Option String
  messages : List Val
  next_url : Option Val
  previous_url : Option Val

def lookupCache : List (Option String × ConversationPage) → Option String →
    Option ConversationPage
  | [], _ => none
  | (k, p) :: rest, key => if k = key then some p else lookupCache rest key

/-- The mutable state of one `ConversationPager`: the clamped page limit,
the cache keyed by request cursor (cons models assignment), the count of
successful fetches (`self._fetched`), and the instrumentation counter of
underlying fetch calls. -/
structure PagerState where
  order : String
  pageLimit : Int
  cache : List (Option String × ConversationPage)
  fetched : Nat
  calls : Nat

/-- `ConversationPager.__init__` (lines 200-213): the page limit is
clamped with `max(page_limit, 0)`; the cache starts empty. -/
def mkPager (order : String) (pageLimit : Int) : PagerState :=
  { order := order
    pageLimit := max pageLimit 0
    cache := []
    fetched := 0
    calls := 0 }

/-- The result of one `fetch_page` call: `crash` is an uncaught exception
out of `fetch_conversation_page`; `ret` carries the returned
page-or-`None` and the instance state after the call. -/
inductive FPRes where
  | crash
  | ret (page : Option ConversationPage) (st : PagerState)

/-- `ConversationPager.fetch_page` (lines 215-252): cache hit returns the
cached page; with a truthy `_page_limit` already reached by `_fetched`,
an uncached cursor returns `None` without fetching; otherwise one
underlying fetch — `(None, None)` returns `None` caching nothing, and a
page is normalized, sorted per the configured order (`reverse` exactly
when the order is `"desc"`), cached, and counted. -/
def fetch_page (server : Server) (st : PagerState) (pageUrl : Option String) : FPRes :=
  match lookupCache st.cache pageUrl with
  | some page => .ret (some page) st
  | none =>
    if st.pageLimit ≠ 0 ∧ st.pageLimit ≤ (st.fetched : Int) ∧
        (lookupCache st.cache pageUrl).isNone then
      .ret none st
    else
      let st1 := { st with calls := st.calls + 1 }
      match fetch_conversation_page server (pageUrl.map Val.str) with
      | .crash => .crash
      | .failure => .ret none st1
      | .success data paging =>
        let detailed := normalizePage data
        let sorted := if st.order = "desc" then sortDesc detailed else sortAsc detailed
        let page : ConversationPage :=
          { identifier := pageUrl
            messages := sorted
            next_url := paging.get? "next"
            previous_url := paging.get? "previous" }
        .ret (some page)
          { st1 with cache := (pageUrl, page) :: st1.cache, fetched := st1.fetched + 1 }

/-! ## Specification-side formulations

These definitions follow the specification's words, to be compared with
the embedded code above. -/

/-- Spec §4.4(a), ascending: "normalize and accumulate **all** messages
across all pages into one collection". -/
def allNormalizedMessages (pages : List (List Val × Val)) : List Val :=
  pages.flatMap (fun page => normalizePage page.1)

/-- Spec §4.4(a), descending: "within each page, sort only that page's
messages descending; yield page-by-page without cross-page reordering". -/
def pageLocalDescOutput (pages : List (List Val × Val)) : List Val :=
  pages.flatMap (fun page => sortDesc (normalizePage page.1))

/-- Spec §4.2: "the record is a mapping type and carries a non-empty
identifier field". -/
def isMappingWithId (r : Val) : Bool :=
  match r with
  | .obj fields =>
    match lookupField fields "id" with
    | some idVal => truthy idVal
    | none => false
  | _ => false

/-- A record is a mapping. -/
def isMapping (r : Val) : Bool :=
  match r with
  | .obj _ => true
  | _ => false

/-- Spec §4.4(a): the page ceiling has been reached by a page count. -/
def ceilingReached (pageLimit : Int) (pageCount : Nat) : Prop :=
  pageLimit ≠ 0 ∧ pageLimit ≤ (pageCount : Int)

instance (pageLimit : Int) (pageCount : Nat) : Decidable (ceilingReached pageLimit pageCount) :=
  inferInstanceAs (Decidable (_ ∧ _))

/-- Spec §4.2 text probe order, step (b): the nested `text` container. -/
def textFieldProbe (data : Val) : Option String :=
  match data.get? "text" with
  | some (.str s) => fromCandidate (some (.str s))
  | some (.obj fields) => probeSubKeys (.obj fields)
  | _ => none

/-- Spec §4.2 text probe order, step (c): the attachments chain. -/
def attachmentsProbe (data : Val) : Option String :=
  match data.get? "attachments" with
  | some (.obj fields) => probeAttachmentList (attachmentItems (.obj fields))
  | _ => none

/-! ## Concrete inputs for witnesses and counterexamples -/

def tsT1 : String := "2024-01-01T00:00:01+0000"
def tsT2 : String := "2024-01-01T00:00:02+0000"
def tsT3 : String := "2024-01-01T00:00:03+0000"
def tsT4 : String := "2024-01-01T00:00:04+0000"

def mT1 : Val := .obj [("id", .str "m1"), ("created_time", .str tsT1)]
def mT2 : Val := .obj [("id", .str "m2"), ("created_time", .str tsT2)]
def mT3 : Val := .obj [("id", .str "m3"), ("created_time", .str tsT3)]
def mT4 : Val := .obj [("id", .str "m4"), ("created_time", .str tsT4)]

/-- Two pages of two messages each, timestamps `[T3, T1]` then `[T4, T2]`
(spec §8.3/§8.4); the second page carries no `next` cursor. -/
def demoServer : Server := fun url =>
  match url with
  | none => .body (.obj [("data", .arr [mT3, mT1]),
                         ("paging", .obj [("next", .str "page2")])])
  | some (.str "page2") => .body (.obj [("data", .arr [mT4, mT2]),
                                        ("paging", .obj [])])
  | _ => .netErr

/-- A single page holding one message and no `next` cursor. -/
def oneServer : Server := fun _ =>
  .body (.obj [("data", .arr [mT1]), ("paging", .obj [])])

/-- Every request fails at the transport (network error / non-2xx). -/
def failServer : Server := fun _ => .netErr

/-- A 200 JSON response whose `messages` member is not a mapping: Python
raises `AttributeError` on `container.get` (line 103). -/
def shapeServer : Server := fun _ => .body (.obj [("messages", .num 5)])

/-- The transport failure of `failServer` replaced, at the first page
only, by a well-formed empty page with no cursors. -/
def emptyBodyServer : Server := fun url =>
  match url with
  | none => .body (.obj [])
  | some _ => .netErr

/-- A first page with an empty record set but a `next` cursor pointing at
a second, non-empty page. -/
def emptyPageServer : Server := fun url =>
  match url with
  | none => .body (.obj [("data", .arr []),
                         ("paging", .obj [("next", .str "page2")])])
  | some (.str "page2") => .body (.obj [("data", .arr [mT1]),
                                        ("paging", .obj [])])
  | _ => .netErr

/-- A record with no parsable timestamp and a late identifier. -/
def mNoTs : Val := .obj [("id", .str "z"), ("created_time", .str "bogus")]

/-- A record whose real timestamp is exactly the epoch and whose
identifier precedes `"z"`. -/
def mEpoch : Val := .obj [("id", .str "a"),
                          ("created_time", .str "1970-01-01T00:00:00+0000")]

/-- A record with both a direct `message` text and an attachment payload
text (spec §8.7). -/
def mBothTexts : Val :=
  .obj [("id", .str "b1"),
        ("message", .str "  direct  "),
        ("attachments", .obj [("data", .arr
          [.obj [("payload", .obj [("text", .str "attached")])]])])]

/-- A record whose only text lives in an attachment payload's `body`
key, padded with whitespace (spec §8.7). -/
def mBodyOnly : Val :=
  .obj [("id", .str "b2"),
        ("attachments", .obj [("data", .arr
          [.obj [("payload", .obj [("body", .str "  from body  ")])]])])]

/-! ## Order lemmas for the key comparison -/

theorem charEq_of_toNat_eq {a b : Char} (h : a.toNat = b.toNat) : a = b :=
  Char.ext_iff.mpr (UInt32.ext_iff.mpr h)

theorem ltChars_cons (a b : Char) (as bs : List Char) :
    ltChars (a :: as) (b :: bs) =
      (decide (a.toNat < b.toNat) || (decide (a.toNat = b.toNat) && ltChars as bs)) := by
  simp only [ltChars]
  rcases Nat.lt_trichotomy a.toNat b.toNat with h | h | h
  · simp [h]
  · simp [h, Nat.lt_irrefl]
  · simp [show ¬ a.toNat < b.toNat by omega, h, show a.toNat ≠ b.toNat by omega]

theorem ltChars_trans :
    ∀ (x y z : List Char), ltChars x y = true → ltChars y z = true → ltChars x z = true := by
  intro x
  induction x with
  | nil =>
    intro y z hxy hyz
    cases y with
    | nil => simp [ltChars] at hxy
    | cons b bs =>
      cases z with
      | nil => simp [ltChars] at hyz
      | cons c cs => simp [ltChars]
  | cons a as ih =>
    intro y z hxy hyz
    cases y with
    | nil => simp [ltChars] at hxy
    | cons b bs =>
      cases z with
      | nil => simp [ltChars] at hyz
      | cons c cs =>
        rw [ltChars_cons] at hxy hyz ⊢
        simp only [Bool.or_eq_true, Bool.and_eq_true, decide_eq_true_eq] at hxy hyz ⊢
        rcases hxy with h1 | ⟨h1e, h1r⟩
        · rcases hyz with h2 | ⟨h2e, h2r⟩
          · exact Or.inl (by omega)
          · exact Or.inl (by omega)
        · rcases hyz with h2 | ⟨h2e, h2r⟩
          · exact Or.inl (by omega)
          · exact Or.inr ⟨by omega, ih bs cs h1r h2r⟩

theorem ltChars_asymm :
    ∀ (x y : List Char), ltChars x y = true → ltChars y x = false := by
  intro x
  induction x with
  | nil =>
    intro y h
    cases y with
    | nil => simp [ltChars] at h
    | cons b bs => simp [ltChars]
  | cons a as ih =>
    intro y h
    cases y with
    | nil => simp [ltChars] at h
    | cons b bs =>
      rw [ltChars_cons] at h ⊢
      simp only [Bool.or_eq_true, Bool.and_eq_true, decide_eq_true_eq] at h
      rcases h with h | ⟨he, hr⟩
      · simp [show ¬ b.toNat < a.toNat by omega, show b.toNat ≠ a.toNat by omega]
      · simp [show ¬ b.toNat < a.toNat by omega, show b.toNat = a.toNat by omega,
              ih bs hr]

theorem ltChars_connex :
    ∀ (x y : List Char), ltChars x y = false → ltChars y x = false → x = y := by
  intro x
  induction x with
  | nil =>
    intro y h1 _
    cases y with
    | nil => rfl
    | cons b bs => simp [ltChars] at h1
  | cons a as ih =>
    intro y h1 h2
    cases y with
    | nil => simp [ltChars] at h2
    | cons b bs =>
      rw [ltChars_cons] at h1 h2
      simp only [Bool.or_eq_false_iff, Bool.and_eq_false_iff,
        decide_eq_false_iff_not, decide_eq_true_eq] at h1 h2
      have hab : a.toNat = b.toNat := by omega
      have hr1 : ltChars as bs = false := by
        rcases h1.2 with h | h
        · exact absurd hab h
        · exact h
      have hr2 : ltChars bs as = false := by
        rcases h2.2 with h | h
        · exact absurd hab.symm h
        · exact h
      rw [charEq_of_toNat_eq hab, ih bs hr1 hr2]

theorem strLeB_total (s t : String) : strLeB s t = true ∨ strLeB t s = true := by
  unfold strLeB strLtB
  by_cases h : ltChars t.data s.data = true
  · right
    simp [ltChars_asymm _ _ h]
  · left
    simp [Bool.not_eq_true] at h
    simp [h]

theorem strLeB_trans {a b c : String}
    (h1 : strLeB a b = true) (h2 : strLeB b c = true) : strLeB a c = true := by
  unfold strLeB strLtB at h1 h2 ⊢
  simp only [Bool.not_eq_true'] at h1 h2 ⊢
  by_contra hx
  simp only [Bool.not_eq_false] at hx
  cases hcb : ltChars b.data c.data with
  | true =>
    rw [ltChars_trans _ _ _ hcb hx] at h1
    exact absurd h1 (by simp)
  | false =>
    have hbc : c.data = b.data := ltChars_connex _ _ h2 hcb
    rw [hbc] at hx
    rw [hx] at h1
    exact absurd h1 (by simp)

theorem keyLe_iff (a b : Int × String) :
    keyLe a b = true ↔ (a.1 < b.1 ∨ (a.1 = b.1 ∧ strLeB a.2 b.2 = true)) := by
  unfold keyLe
  rcases lt_trichotomy a.1 b.1 with h | h | h
  · simp [h]
  · simp [h, lt_irrefl]
  · simp [show ¬ a.1 < b.1 by omega, h, show a.1 ≠ b.1 by omega]

theorem keyLt_iff (a b : Int × String) :
    keyLt a b = true ↔ (a.1 < b.1 ∨ (a.1 = b.1 ∧ strLtB a.2 b.2 = true)) := by
  unfold keyLt
  rcases lt_trichotomy a.1 b.1 with h | h | h
  · simp [h]
  · simp [h, lt_irrefl]
  · simp [show ¬ a.1 < b.1 by omega, h, show a.1 ≠ b.1 by omega]

theorem keyLe_total (a b : Int × String) : keyLe a b = true ∨ keyLe b a = true := by
  rw [keyLe_iff, keyLe_iff]
  rcases lt_trichotomy a.1 b.1 with h | h | h
  · exact Or.inl (Or.inl h)
  · rcases strLeB_total a.2 b.2 with hs | hs
    · exact Or.inl (Or.inr ⟨h, hs⟩)
    · exact Or.inr (Or.inr ⟨h.symm, hs⟩)
  · exact Or.inr (Or.inl h)

theorem keyLe_trans {a b c : Int × String}
    (h1 : keyLe a b = true) (h2 : keyLe b c = true) : keyLe a c = true := by
  rw [keyLe_iff] at h1 h2 ⊢
  rcases h1 with h1 | ⟨h1e, h1s⟩
  · rcases h2 with h2 | ⟨h2e, h2s⟩
    · exact Or.inl (by omega)
    · exact Or.inl (by omega)
  · rcases h2 with h2 | ⟨h2e, h2s⟩
    · exact Or.inl (by omega)
    · exact Or.inr ⟨by omega, strLeB_trans h1s h2s⟩

theorem msgLeAsc_total : ∀ a b : Val, msgLeAsc a b ∨ msgLeAsc b a := fun a b =>
  keyLe_total (orderKey a) (orderKey b)

theorem msgLeAsc_trans : ∀ a b c : Val, msgLeAsc a b → msgLeAsc b c → msgLeAsc a c :=
  fun _ _ _ h1 h2 => keyLe_trans h1 h2

theorem msgLeDesc_total : ∀ a b : Val, msgLeDesc a b ∨ msgLeDesc b a := fun a b =>
  keyLe_total (orderKey b) (orderKey a)

theorem msgLeDesc_trans : ∀ a b c : Val, msgLeDesc a b → msgLeDesc b c → msgLeDesc a c :=
  fun _ _ _ h1 h2 => keyLe_trans h2 h1

/-! ## Structural lemmas about the traversal outputs -/

theorem foldl_collect (pages : List (List Val × Val)) (acc : List Val) :
    pages.foldl (fun acc page => acc ++ normalizePage page.1) acc
      = acc ++ allNormalizedMessages pages := by
  induction pages generalizing acc with
  | nil => simp [allNormalizedMessages]
  | cons p ps ih => simp [allNormalizedMessages, ih, List.append_assoc]

theorem sortDesc_nil : sortDesc [] = [] := rfl

theorem descPagesOutput_eq (pages : List (List Val × Val)) :
    descPagesOutput pages = pageLocalDescOutput pages := by
  induction pages with
  | nil => rfl
  | cons p ps ih =>
    unfold descPagesOutput pageLocalDescOutput
    by_cases h : (normalizePage p.1).isEmpty
    · have h0 : normalizePage p.1 = [] := by
        simpa using h
      simp only [h, if_true, List.flatMap_cons, h0, sortDesc_nil, List.nil_append]
      simpa [pageLocalDescOutput] using ih
    · simp only [h, if_false, List.flatMap_cons]
      rw [ih]
      rfl

theorem iter_enriched_asc_eq (server : Server) (pageLimit : Int) (fuel : Nat)
    (h1 : (iter_conversation_pages server pageLimit fuel).2 ≠ .crash)
    (h2 : (iter_conversation_pages server pageLimit fuel).2 ≠ .fuelOut) :
    iter_enriched_messages server "asc" pageLimit fuel
      = (sortAsc (allNormalizedMessages (iter_conversation_pages server pageLimit fuel).1),
         (iter_conversation_pages server pageLimit fuel).2) := by
  rcases hE : iter_conversation_pages server pageLimit fuel with ⟨pgs, r⟩
  rw [hE] at h1 h2
  unfold iter_enriched_messages
  rw [hE]
  rw [if_pos rfl]
  cases r with
  | crash => exact absurd rfl h1
  | fuelOut => exact absurd rfl h2
  | ceiling => simp [foldl_collect]
  | failure => simp [foldl_collect]
  | noNext => simp [foldl_collect]

/-- C1: in ascending streaming mode the engine accumulates the normalized
messages of every fetched page into one collection, sorts that whole
collection once by the ordering key ascending, and only then yields it:
the yielded stream equals the global sort of all normalized messages
across the traversed pages — a permutation of them, sorted by the key —
whenever the traversal neither raised nor ran out of fuel. -/
theorem asc_streaming_is_global_sort (server : Server) (pageLimit : Int) (fuel : Nat)
    (hc : (iter_conversation_pages server pageLimit fuel).2 ≠ .crash)
    (hf : (iter_conversation_pages server pageLimit fuel).2 ≠ .fuelOut) :
    (iter_enriched_messages server "asc" pageLimit fuel).1
        = sortAsc (allNormalizedMessages (iter_conversation_pages server pageLimit fuel).1)
      ∧ (iter_enriched_messages server "asc" pageLimit fuel).1.Perm
          (allNormalizedMessages (iter_conversation_pages server pageLimit fuel).1)
      ∧ List.Sorted msgLeAsc (iter_enriched_messages server "asc" pageLimit fuel).1 := by
  rw [iter_enriched_asc_eq server pageLimit fuel hc hf]
  refine ⟨rfl, ?_, ?_⟩
  · exact List.perm_insertionSort msgLeAsc _
  · haveI : IsTotal Val msgLeAsc := ⟨msgLeAsc_total⟩
    haveI : IsTrans Val msgLeAsc := ⟨msgLeAsc_trans⟩
    exact List.sorted_insertionSort msgLeAsc _

/-- C1 witness: two pages with timestamps `[T3, T1]` and `[T4, T2]`
yield exactly `[T1, T2, T3, T4]`. -/
theorem asc_streaming_is_global_sort_witness :
    (iter_conversation_pages demoServer 0 5).2 ≠ .crash
    ∧ (iter_conversation_pages demoServer 0 5).2 ≠ .fuelOut
    ∧ (iter_enriched_messages demoServer "asc" 0 5).1 = [mT1, mT2, mT3, mT4]
    ∧ (iter_enriched_messages demoServer "asc" 0 5).1.Perm
        (allNormalizedMessages (iter_conversation_pages demoServer 0 5).1)
    ∧ List.Sorted msgLeAsc (iter_enriched_messages demoServer "asc" 0 5).1 := by
  obtain ⟨-, hP, hS⟩ :=
    asc_streaming_is_global_sort demoServer 0 5 (by decide) (by decide)
  exact ⟨by decide, by decide, rfl, hP, hS⟩

/-- C2: in descending streaming mode the engine yields page-by-page in
server page order — each page's normalized messages sorted descending by
the ordering key within the page, concatenated without any cross-page
reordering or merging — and on the two-page input `[T3, T1]`, `[T4, T2]`
it yields `[T3, T1]` then `[T4, T2]`. -/
theorem desc_streaming_is_page_local :
    (∀ (server : Server) (pageLimit : Int) (fuel : Nat),
        (iter_enriched_messages server "desc" pageLimit fuel).1
          = pageLocalDescOutput (iter_conversation_pages server pageLimit fuel).1)
    ∧ (iter_enriched_messages demoServer "desc" 0 5).1 = [mT3, mT1, mT4, mT2] := by
  constructor
  · intro server pageLimit fuel
    unfold iter_enriched_messages
    rw [if_neg (by decide)]
    exact descPagesOutput_eq _
  · rfl

/-- C3 counterexample: when the underlying fetch fails, nothing is
cached, so a second `fetch_page` call with the same cursor performs a
second underlying fetch — the `calls` counter reaches 2 for one distinct
cursor, contradicting "at most one fetch per distinct cursor for the
lifetime of the instance". -/
theorem navigator_refetches_after_failure :
    fetch_page failServer (mkPager "asc" 0) none
        = .ret none { order := "asc", pageLimit := 0, cache := [],
                      fetched := 0, calls := 1 }
    ∧ fetch_page failServer
          { order := "asc", pageLimit := 0, cache := [],
            fetched := 0, calls := 1 } none
        = .ret none { order := "asc", pageLimit := 0, cache := [],
                      fetched := 0, calls := 2 } :=
  ⟨rfl, rfl⟩

/-- C3 amended: once `fetch_page(c)` has returned a Page, every later
`fetch_page(c)` returns that same cached Page with the state (so also
the underlying-call counter) unchanged — at most one *successful* fetch
per distinct cursor; a failed fetch caches nothing and is retried by a
later call. -/
theorem fetch_page_cached_after_success (server : Server) (st : PagerState)
    (c : Option String) (p : ConversationPage) (st1 : PagerState)
    (h : fetch_page server st c = .ret (some p) st1) :
    fetch_page server st1 c = .ret (some p) st1 := by
  unfold fetch_page at h
  cases hlk : lookupCache st.cache c with
  | some q =>
    rw [hlk] at h
    injection h with h1 h2
    injection h1 with h1
    subst h2
    subst h1
    unfold fetch_page
    rw [hlk]
  | none =>
    rw [hlk] at h
    simp only [Option.isNone_none, and_true] at h
    by_cases hlim : st.pageLimit ≠ 0 ∧ st.pageLimit ≤ (st.fetched : Int)
    · rw [if_pos hlim] at h
      injection h with h1 h2
      exact absurd h1 (by simp)
    · rw [if_neg hlim] at h
      cases hfc : fetch_conversation_page server (c.map Val.str) with
      | crash =>
        simp only [hfc] at h
        cases h
      | failure =>
        simp only [hfc] at h
        injection h with h1 h2
        exact absurd h1 (by simp)
      | success data paging =>
        simp only [hfc] at h
        injection h with h1 h2
        injection h1 with h1
        subst h2
        subst h1
        simp [fetch_page, lookupCache]

/-- C3 witness: a successful first-page fetch is cached, and the repeat
call returns the identical Page with identical state. -/
theorem fetch_page_cached_after_success_witness :
    fetch_page oneServer (mkPager "asc" 0) none
        = .ret (some { identifier := none, messages := [mT1],
                       next_url := none, previous_url := none })
            { order := "asc", pageLimit := 0,
              cache := [(none, { identifier := none, messages := [mT1],
                                 next_url := none, previous_url := none })],
              fetched := 1, calls := 1 }
    ∧ fetch_page oneServer
          { order := "asc", pageLimit := 0,
            cache := [(none, { identifier := none, messages := [mT1],
                               next_url := none, previous_url := none })],
            fetched := 1, calls := 1 } none
        = .ret (some { identifier := none, messages := [mT1],
                       next_url := none, previous_url := none })
            { order := "asc", pageLimit := 0,
              cache := [(none, { identifier := none, messages := [mT1],
                                 next_url := none, previous_url := none })],
              fetched := 1, calls := 1 } :=
  ⟨rfl, fetch_page_cached_after_success oneServer (mkPager "asc" 0) none _ _ rfl⟩

/-- C4: with a truthy page-count ceiling already reached by the count of
successful fetches, `fetch_page` returns null for any cursor not in the
cache, leaving the state (including the underlying-call counter)
untouched, while any already-cached cursor still returns its Page —
the cache hit bypasses the ceiling. -/
theorem fetch_page_limit_blocks_only_uncached (server : Server) (st : PagerState)
    (c : Option String)
    (hnz : st.pageLimit ≠ 0) (hreach : st.pageLimit ≤ (st.fetched : Int)) :
    (lookupCache st.cache c = none → fetch_page server st c = .ret none st)
    ∧ (∀ p, lookupCache st.cache c = some p → fetch_page server st c = .ret (some p) st) := by
  constructor
  · intro hlk
    unfold fetch_page
    simp only [hlk]
    rw [if_pos ⟨hnz, hreach, rfl⟩]
  · intro p hlk
    unfold fetch_page
    simp only [hlk]

/-- C4 witness: with `page_limit = 1`, after the first-page fetch a
second distinct cursor returns null while re-requesting the first
cursor still returns its Page. -/
theorem fetch_page_limit_blocks_only_uncached_witness :
    fetch_page oneServer (mkPager "asc" 1) none
      = .ret (some { identifier := none, messages := [mT1],
                     next_url := none, previous_url := none })
          { order := "asc", pageLimit := 1,
            cache := [(none, { identifier := none, messages := [mT1],
                               next_url := none, previous_url := none })],
            fetched := 1, calls := 1 }
    ∧ fetch_page oneServer
          { order := "asc", pageLimit := 1,
            cache := [(none, { identifier := none, messages := [mT1],
                               next_url := none, previous_url := none })],
            fetched := 1, calls := 1 } (some "next-cursor")
      = .ret none
          { order := "asc", pageLimit := 1,
            cache := [(none, { identifier := none, messages := [mT1],
                               next_url := none, previous_url := none })],
            fetched := 1, calls := 1 }
    ∧ fetch_page oneServer
          { order := "asc", pageLimit := 1,
            cache := [(none, { identifier := none, messages := [mT1],
                               next_url := none, previous_url := none })],
            fetched := 1, calls := 1 } none
      = .ret (some { identifier := none, messages := [mT1],
                     next_url := none, previous_url := none })
          { order := "asc", pageLimit := 1,
            cache := [(none, { identifier := none, messages := [mT1],
                               next_url := none, previous_url := none })],
            fetched := 1, calls := 1 } := by
  refine ⟨rfl, ?_, ?_⟩
  · exact (fetch_page_limit_blocks_only_uncached oneServer _ (some "next-cursor")
      (by decide) (by decide)).1 rfl
  · exact (fetch_page_limit_blocks_only_uncached oneServer _ none
      (by decide) (by decide)).2 _ rfl

/-- C10: a negative `page_limit` is clamped to 0 by the Navigator's
constructor, making it behave exactly as the unlimited pager, while the
streaming traversal treats the same negative value as a ceiling already
reached and yields no pages and no messages at all. -/
theorem negative_limit_divergence (order : String) (n : Int) (hn : n < 0) :
    mkPager order n = mkPager order 0
    ∧ (∀ (server : Server) (fuel : Nat),
        iter_conversation_pages server n (fuel + 1) = ([], .ceiling))
    ∧ (∀ (server : Server) (order2 : String) (fuel : Nat),
        (iter_enriched_messages server order2 n (fuel + 1)).1 = []) := by
  have hpages : ∀ (server : Server) (fuel : Nat),
      iter_conversation_pages server n (fuel + 1) = ([], .ceiling) := by
    intro server fuel
    unfold iter_conversation_pages iterPagesAux
    rw [if_pos ⟨by omega, by omega⟩]
  refine ⟨?_, hpages, ?_⟩
  · unfold mkPager
    rw [max_eq_right (le_of_lt hn), max_self]
  · intro server order2 fuel
    unfold iter_enriched_messages
    rw [hpages server fuel]
    by_cases horder : order2 = "asc"
    · simp [horder, sortAsc, allNormalizedMessages]
    · simp [horder, descPagesOutput]

/-- C10 witness: `page_limit = -1` concretely — the pager state equals
the unlimited one, the traversal yields nothing with reason `ceiling`
and the demo server's messages are never fetched. -/
theorem negative_limit_divergence_witness :
    mkPager "asc" (-1) = mkPager "asc" 0
    ∧ iter_conversation_pages demoServer (-1) 5 = ([], .ceiling)
    ∧ (iter_enriched_messages demoServer "asc" (-1) 5).1 = [] := by
  obtain ⟨h1, h2, h3⟩ := negative_limit_divergence "asc" (-1) (by decide)
  exact ⟨h1, h2 demoServer 4, h3 demoServer "asc" 4⟩

/-- C7 counterexample: a first page with an empty record set but a
`next` cursor does not end the traversal — the engine yields the empty
page and then a second page; the loop actually exits on a falsy `next`
cursor, not on an empty record set. -/
theorem empty_page_does_not_stop_traversal :
    (iter_conversation_pages emptyPageServer 0 5).1
        = [([], .obj [("next", .str "page2")]), ([mT1], .obj [])]
    ∧ (iter_conversation_pages emptyPageServer 0 5).2 = .noNext :=
  ⟨rfl, rfl⟩

/-- C7 amended: one traversal step stops exactly on the page ceiling, a
fetch failure, an uncaught fetch exception, or a falsy `next` cursor;
with a truthy `next` cursor it always continues to the next page — even
when the page's record set is empty. -/
theorem traversal_stop_conditions (server : Server) (pageLimit : Int)
    (fuel : Nat) (url : Option Val) (count : Nat) :
    (ceilingReached pageLimit count →
      iterPagesAux server pageLimit (fuel + 1) url count = ([], .ceiling))
    ∧ (¬ ceilingReached pageLimit count →
        fetch_conversation_page server url = .failure →
        iterPagesAux server pageLimit (fuel + 1) url count = ([], .failure))
    ∧ (¬ ceilingReached pageLimit count →
        fetch_conversation_page server url = .crash →
        iterPagesAux server pageLimit (fuel + 1) url count = ([], .crash))
    ∧ (∀ (data : List Val) (paging : Val) (nextVal : Option Val),
        ¬ ceilingReached pageLimit count →
        fetch_conversation_page server url = .success data paging →
        getAttr paging "next" = some nextVal →
        truthy (nextVal.getD .null) = false →
        iterPagesAux server pageLimit (fuel + 1) url count = ([(data, paging)], .noNext))
    ∧ (∀ (data : List Val) (paging : Val) (nextVal : Option Val),
        ¬ ceilingReached pageLimit count →
        fetch_conversation_page server url = .success data paging →
        getAttr paging "next" = some nextVal →
        truthy (nextVal.getD .null) = true →
        iterPagesAux server pageLimit (fuel + 1) url count
          = ((data, paging) ::
              (iterPagesAux server pageLimit fuel (some (nextVal.getD .null)) (count + 1)).1,
             (iterPagesAux server pageLimit fuel (some (nextVal.getD .null)) (count + 1)).2)) := by
  unfold ceilingReached
  refine ⟨?_, ?_, ?_, ?_, ?_⟩
  · intro h
    simp [iterPagesAux, h]
  · intro h hfc
    simp [iterPagesAux, h, hfc]
  · intro h hfc
    simp [iterPagesAux, h, hfc]
  · intro data paging nextVal h hfc hga htr
    simp [iterPagesAux, h, hfc, hga, htr]
  · intro data paging nextVal h hfc hga htr
    simp [iterPagesAux, h, hfc, hga, htr]

/-- C7 witness: the continuation clause applied at a concrete first page
whose record set is empty but whose `next` cursor is truthy — the
traversal recurses to the second page instead of stopping. -/
theorem traversal_stop_conditions_witness :
    ¬ ceilingReached 0 0
    ∧ fetch_conversation_page emptyPageServer none
        = .success [] (.obj [("next", .str "page2")])
    ∧ iterPagesAux emptyPageServer 0 5 none 0
        = (([], Val.obj [("next", .str "page2")]) ::
            (iterPagesAux emptyPageServer 0 4 (some (.str "page2")) 1).1,
           (iterPagesAux emptyPageServer 0 4 (some (.str "page2")) 1).2) := by
  refine ⟨by decide, rfl, ?_⟩
  exact (traversal_stop_conditions emptyPageServer 0 4 none 0).2.2.2.2
    [] (.obj [("next", .str "page2")]) (some (.str "page2"))
    (by decide) rfl rfl rfl

/-- C8 counterexample: a message with an unparsable timestamp receives
the epoch sentinel, yet it sorts *after* a record whose real timestamp
is exactly the epoch (hence ≥ epoch) and whose identifier precedes its
own: the key order falls back to the identifier at the tie. -/
theorem epoch_tie_sorts_by_identifier :
    parse_created_time (createdTimeStr mNoTs) = none
    ∧ parse_created_time (createdTimeStr mEpoch) = some EPOCH
    ∧ keyLt (orderKey mNoTs) (orderKey mEpoch) = false
    ∧ keyLt (orderKey mEpoch) (orderKey mNoTs) = true
    ∧ sortAsc [mNoTs, mEpoch] = [mEpoch, mNoTs] :=
  ⟨rfl, rfl, rfl, rfl, rfl⟩

/-- C8 amended: the ordering key parses the creation timestamp with the
single fixed format and substitutes the epoch sentinel on absence or
parse failure, giving a total never-failing `(timestamp, identifier)`
order; a message lacking a parsable timestamp sorts strictly before any
record whose real timestamp is strictly greater than the epoch, and at
the epoch itself the identifier decides. -/
theorem ordering_key_total_with_epoch_default :
    (∀ m : Val, orderKey m
        = ((parse_created_time (createdTimeStr m)).getD EPOCH, idStr m))
    ∧ (∀ m : Val, parse_created_time (createdTimeStr m) = none →
        (orderKey m).1 = EPOCH)
    ∧ (∀ a b : Val,
        keyLe (orderKey a) (orderKey b) = true ∨ keyLe (orderKey b) (orderKey a) = true)
    ∧ (∀ (m m' : Val) (t : Int),
        parse_created_time (createdTimeStr m) = none →
        parse_created_time (createdTimeStr m') = some t →
        EPOCH < t →
        keyLt (orderKey m) (orderKey m') = true) := by
  refine ⟨fun m => rfl, ?_, ?_, ?_⟩
  · intro m h
    simp [orderKey, h]
  · intro a b
    exact keyLe_total (orderKey a) (orderKey b)
  · intro m m' t h1 h2 h3
    rw [keyLt_iff]
    left
    simpa [orderKey, h1, h2] using h3

/-- C8 witness: the unparsable-timestamp record sorts strictly before a
record timestamped strictly after the epoch. -/
theorem ordering_key_total_with_epoch_default_witness :
    parse_created_time (createdTimeStr mNoTs) = none
    ∧ parse_created_time (createdTimeStr mT1) = some 1704067201
    ∧ EPOCH < 1704067201
    ∧ keyLt (orderKey mNoTs) (orderKey mT1) = true := by
  refine ⟨rfl, rfl, by decide, ?_⟩
  exact ordering_key_total_with_epoch_default.2.2.2 mNoTs mT1 1704067201
    rfl rfl (by decide)

theorem fromCandidate_shape (c : Option Val) (t : String)
    (h : fromCandidate c = some t) : t ≠ "" ∧ ∃ s, t = pyStrip s := by
  unfold fromCandidate at h
  cases c with
  | none => cases h
  | some v =>
    cases v with
    | str s =>
      dsimp only at h
      by_cases hs : pyStrip s ≠ ""
      · rw [if_pos hs] at h
        injection h with h
        subst h
        exact ⟨hs, s, rfl⟩
      · rw [if_neg hs] at h
        cases h
    | null => cases h
    | bool b => cases h
    | num n => cases h
    | arr l => cases h
    | obj fs => cases h

theorem probeSubKeys_shape (m : Val) (t : String)
    (h : probeSubKeys m = some t) : t ≠ "" ∧ ∃ s, t = pyStrip s := by
  unfold probeSubKeys at h
  cases h1 : fromCandidate (m.get? "text") with
  | some r =>
    rw [h1] at h
    injection h with h
    subst h
    exact fromCandidate_shape _ _ h1
  | none =>
    rw [h1] at h
    cases h2 : fromCandidate (m.get? "body") with
    | some r =>
      rw [h2] at h
      injection h with h
      subst h
      exact fromCandidate_shape _ _ h2
    | none =>
      rw [h2] at h
      exact fromCandidate_shape _ _ h

theorem probeAttachmentItem_shape (item : Val) (t : String)
    (h : probeAttachmentItem item = some t) : t ≠ "" ∧ ∃ s, t = pyStrip s := by
  unfold probeAttachmentItem at h
  cases item with
  | obj fs =>
    dsimp only at h
    cases h1 : fromCandidate (Val.get? (.obj fs) "text") with
    | some r =>
      rw [h1] at h
      injection h with h
      subst h
      exact fromCandidate_shape _ _ h1
    | none =>
      rw [h1] at h
      cases h2 : Val.get? (.obj fs) "payload" with
      | some payload =>
        rw [h2] at h
        cases payload with
        | obj pfs => exact probeSubKeys_shape _ _ h
        | null => cases h
        | bool b => cases h
        | num n => cases h
        | str s => cases h
        | arr l => cases h
      | none =>
        rw [h2] at h
        cases h
  | null => cases h
  | bool b => cases h
  | num n => cases h
  | str s => cases h
  | arr l => cases h

theorem probeAttachmentList_shape (items : List Val) (t : String)
    (h : probeAttachmentList items = some t) : t ≠ "" ∧ ∃ s, t = pyStrip s := by
  induction items with
  | nil => cases h
  | cons item rest ih =>
    unfold probeAttachmentList at h
    cases h1 : probeAttachmentItem item with
    | some r =>
      rw [h1] at h
      injection h with h
      subst h
      exact probeAttachmentItem_shape _ _ h1
    | none =>
      rw [h1] at h
      exact ih h

theorem extractFromAttachments_eq (d : Val) :
    extract_message_text.extractFromAttachments d = attachmentsProbe d := by
  unfold extract_message_text.extractFromAttachments attachmentsProbe
  cases hA : d.get? "attachments" with
  | none => rfl
  | some v => cases v <;> rfl

theorem attachmentsProbe_shape (d : Val) (t : String)
    (h : attachmentsProbe d = some t) : t ≠ "" ∧ ∃ s, t = pyStrip s := by
  unfold attachmentsProbe at h
  cases hA : d.get? "attachments" with
  | none => rw [hA] at h; cases h
  | some v =>
    rw [hA] at h
    cases v with
    | obj fs => exact probeAttachmentList_shape _ _ h
    | null => cases h
    | bool b => cases h
    | num n => cases h
    | str s => cases h
    | arr l => cases h

/-- C9: text extraction returns the first non-empty stripped string in
the fixed probe order — the direct `message` field first, then the
`text` field (a plain string, or a mapping probed for the fixed
sub-keys), then the attachment entries (own `text`, then the mapping
`payload`'s sub-keys); every returned value is non-empty and is the
strip of some candidate, so empty-after-strip candidates count as
absent. -/
theorem extract_text_probe_order :
    (∀ (d : Val) (t : String),
        fromCandidate (d.get? "message") = some t → extract_message_text d = some t)
    ∧ (∀ (d : Val) (t : String),
        fromCandidate (d.get? "message") = none → textFieldProbe d = some t →
        extract_message_text d = some t)
    ∧ (∀ d : Val,
        fromCandidate (d.get? "message") = none → textFieldProbe d = none →
        extract_message_text d = attachmentsProbe d)
    ∧ (∀ (d : Val) (t : String),
        extract_message_text d = some t → t ≠ "" ∧ ∃ s, t = pyStrip s) := by
  refine ⟨?_, ?_, ?_, ?_⟩
  · intro d t h
    unfold extract_message_text
    simp only [h]
  · intro d t h1 h2
    unfold extract_message_text
    simp only [h1]
    unfold textFieldProbe at h2
    cases hT : d.get? "text" with
    | none => rw [hT] at h2; cases h2
    | some v =>
      rw [hT] at h2
      cases v with
      | str s => dsimp only at h2; simp only [h2]
      | obj fs => dsimp only at h2; simp only [h2]
      | null => cases h2
      | bool b => cases h2
      | num n => cases h2
      | arr l => cases h2
  · intro d h1 h2
    unfold extract_message_text
    simp only [h1]
    unfold textFieldProbe at h2
    cases hT : d.get? "text" with
    | none => rw [hT] at h2; simp only [hT]; exact extractFromAttachments_eq d
    | some v =>
      rw [hT] at h2
      cases v with
      | str s =>
        dsimp only at h2
        dsimp only
        simp only [h2]
        exact extractFromAttachments_eq d
      | obj fs =>
        dsimp only at h2
        dsimp only
        simp only [h2]
        exact extractFromAttachments_eq d
      | null => simp only [hT]; exact extractFromAttachments_eq d
      | bool b => simp only [hT]; exact extractFromAttachments_eq d
      | num n => simp only [hT]; exact extractFromAttachments_eq d
      | arr l => simp only [hT]; exact extractFromAttachments_eq d
  · intro d t h
    unfold extract_message_text at h
    cases h1 : fromCandidate (d.get? "message") with
    | some r =>
      rw [h1] at h
      injection h with h
      subst h
      exact fromCandidate_shape _ _ h1
    | none =>
      rw [h1] at h
      cases hT : d.get? "text" with
      | none =>
        rw [hT] at h
        rw [extractFromAttachments_eq] at h
        exact attachmentsProbe_shape _ _ h
      | some v =>
        rw [hT] at h
        cases v with
        | str s =>
          dsimp only at h
          cases h2 : fromCandidate (some (.str s)) with
          | some r =>
            rw [h2] at h
            injection h with h
            subst h
            exact fromCandidate_shape _ _ h2
          | none =>
            rw [h2] at h
            rw [extractFromAttachments_eq] at h
            exact attachmentsProbe_shape _ _ h
        | obj fs =>
          dsimp only at h
          cases h2 : probeSubKeys (.obj fs) with
          | some r =>
            rw [h2] at h
            injection h with h
            subst h
            exact probeSubKeys_shape _ _ h2
          | none =>
            rw [h2] at h
            rw [extractFromAttachments_eq] at h
            exact attachmentsProbe_shape _ _ h
        | null =>
          dsimp only at h
          rw [extractFromAttachments_eq] at h
          exact attachmentsProbe_shape _ _ h
        | bool b =>
          dsimp only at h
          rw [extractFromAttachments_eq] at h
          exact attachmentsProbe_shape _ _ h
        | num n =>
          dsimp only at h
          rw [extractFromAttachments_eq] at h
          exact attachmentsProbe_shape _ _ h
        | arr l =>
          dsimp only at h
          rw [extractFromAttachments_eq] at h
          exact attachmentsProbe_shape _ _ h

/-- C9 witness: a record with both a direct text field and an attachment
payload text yields the direct field (trimmed), and a record with only
an attachment payload's `body` key yields that value trimmed. -/
theorem extract_text_probe_order_witness :
    fromCandidate (mBothTexts.get? "message") = some "direct"
    ∧ extract_message_text mBothTexts = some "direct"
    ∧ fromCandidate (mBodyOnly.get? "message") = none
    ∧ textFieldProbe mBodyOnly = none
    ∧ extract_message_text mBodyOnly = some "from body"
    ∧ attachmentsProbe mBodyOnly = some "from body"
    ∧ pyStrip "  from body  " = "from body" := by
  refine ⟨rfl, ?_, rfl, rfl, ?_, rfl, rfl⟩
  · exact extract_text_probe_order.1 mBothTexts "direct" rfl
  · rw [extract_text_probe_order.2.2.1 mBodyOnly rfl rfl]
    rfl

theorem normalize_message_eq_self (r m : Val) (h : normalize_message r = some m) : m = r := by
  unfold normalize_message at h
  cases r with
  | obj fields =>
    dsimp only at h
    cases hid : lookupField fields "id" with
    | some idVal =>
      rw [hid] at h
      dsimp only at h
      by_cases htr : truthy idVal = true
      · rw [if_pos htr] at h
        injection h with h
        exact h.symm
      · rw [if_neg htr] at h
        cases h
    | none =>
      rw [hid] at h
      cases h
  | null => cases h
  | bool b => cases h
  | num n => cases h
  | str s => cases h
  | arr l => cases h

theorem normalize_message_isSome_iff (r : Val) :
    (normalize_message r).isSome = true ↔ isMappingWithId r = true := by
  unfold normalize_message isMappingWithId
  cases r with
  | obj fields =>
    cases hid : lookupField fields "id" with
    | some idVal =>
      by_cases htr : truthy idVal = true
      · simp [hid, htr]
      · simp [hid, htr]
    | none => simp [hid]
  | null => simp
  | bool b => simp
  | num n => simp
  | str s => simp
  | arr l => simp

theorem mem_normalizePage {m : Val} {d : List Val} (h : m ∈ normalizePage d) :
    isMappingWithId m = true := by
  unfold normalizePage at h
  obtain ⟨r, hr, hnorm⟩ := List.mem_filterMap.mp h
  have hm := normalize_message_eq_self r m hnorm
  subst hm
  rw [← normalize_message_isSome_iff]
  rw [hnorm]
  rfl

theorem mem_sortAsc {m : Val} {l : List Val} (h : m ∈ sortAsc l) : m ∈ l :=
  (List.perm_insertionSort msgLeAsc l).mem_iff.mp h

theorem mem_sortDesc {m : Val} {l : List Val} (h : m ∈ sortDesc l) : m ∈ l :=
  (List.perm_insertionSort msgLeDesc l).mem_iff.mp h

theorem mem_enriched_isMappingWithId (server : Server) (order : String)
    (pl : Int) (fuel : Nat) (m : Val)
    (h : m ∈ (iter_enriched_messages server order pl fuel).1) :
    isMappingWithId m = true := by
  unfold iter_enriched_messages at h
  rcases hE : iter_conversation_pages server pl fuel with ⟨pgs, r⟩
  rw [hE] at h
  by_cases horder : order = "asc"
  · rw [if_pos horder] at h
    cases r with
    | crash => simp at h
    | fuelOut => simp at h
    | ceiling =>
      have h2 := mem_sortAsc h
      rw [foldl_collect, List.nil_append] at h2
      obtain ⟨p, hp, hm⟩ := List.mem_flatMap.mp h2
      exact mem_normalizePage hm
    | failure =>
      have h2 := mem_sortAsc h
      rw [foldl_collect, List.nil_append] at h2
      obtain ⟨p, hp, hm⟩ := List.mem_flatMap.mp h2
      exact mem_normalizePage hm
    | noNext =>
      have h2 := mem_sortAsc h
      rw [foldl_collect, List.nil_append] at h2
      obtain ⟨p, hp, hm⟩ := List.mem_flatMap.mp h2
      exact mem_normalizePage hm
  · rw [if_neg horder] at h
    rw [descPagesOutput_eq] at h
    obtain ⟨p, hp, hm⟩ := List.mem_flatMap.mp h
    exact mem_normalizePage (mem_sortDesc hm)

/-- C6 counterexample: a non-mapping record is rejected by normalization
but no skip notice is printed for it — the `"skipping message without an
id"` notice (line 184) covers only mapping records lacking an id, so
this rejection is not reported. -/
theorem nonmapping_rejected_without_notice :
    normalize_message (.str "junk-record") = none
    ∧ emitsSkipNotice (.str "junk-record") = false :=
  ⟨rfl, rfl⟩

/-- C6 amended: normalization returns Some exactly for mapping records
with a truthy identifier field and returns the record unchanged;
rejected mapping records lacking an id are reported with a notice while
non-mapping records are skipped silently; a rejection does not abort the
containing page, and every message in any downstream stream is a mapping
with a truthy identifier. -/
theorem normalization_iff_mapping_with_id :
    (∀ r : Val, (normalize_message r).isSome = true ↔ isMappingWithId r = true)
    ∧ (∀ r m : Val, normalize_message r = some m → m = r)
    ∧ (∀ r : Val,
        emitsSkipNotice r = true ↔ (isMapping r = true ∧ normalize_message r = none))
    ∧ normalizePage [.str "junk-record", mT1] = [mT1]
    ∧ (∀ (server : Server) (order : String) (pl : Int) (fuel : Nat) (m : Val),
        m ∈ (iter_enriched_messages server order pl fuel).1 → isMappingWithId m = true) := by
  refine ⟨normalize_message_isSome_iff, normalize_message_eq_self, ?_, rfl,
    mem_enriched_isMappingWithId⟩
  intro r
  unfold emitsSkipNotice isMapping normalize_message
  cases r with
  | obj fields =>
    cases hid : lookupField fields "id" with
    | some idVal =>
      by_cases htr : truthy idVal = true
      · simp [hid, htr]
      · simp [hid, htr]
    | none => simp [hid]
  | null => simp
  | bool b => simp
  | num n => simp
  | str s => simp
  | arr l => simp

/-- C6 witness: the components applied at concrete records — a valid
record survives unchanged, an empty-id mapping triggers the notice, and
a message of a concrete stream carries a truthy id. -/
theorem normalization_iff_mapping_with_id_witness :
    ((normalize_message mT1).isSome = true ↔ isMappingWithId mT1 = true)
    ∧ mT1 = mT1
    ∧ (emitsSkipNotice (Val.obj [("id", .str "")]) = true
        ↔ (isMapping (Val.obj [("id", .str "")]) = true
            ∧ normalize_message (Val.obj [("id", .str "")]) = none))
    ∧ isMappingWithId mT1 = true := by
  refine ⟨normalization_iff_mapping_with_id.1 mT1,
    normalization_iff_mapping_with_id.2.1 mT1 mT1 rfl,
    normalization_iff_mapping_with_id.2.2.1 (Val.obj [("id", .str "")]),
    normalization_iff_mapping_with_id.2.2.2.2 oneServer "desc" 0 5 mT1 ?_⟩
  show mT1 ∈ [mT1]
  exact List.mem_singleton.mpr rfl

theorem iterPagesAux_failure_like_empty (s sR : Server) (c : Option Val)
    (hfail : fetch_conversation_page s c = .failure)
    (hrepl : fetch_conversation_page sR c = .success [] (.obj []))
    (hagree : ∀ u, u ≠ c → sR u = s u)
    (f : List Val → List Val) (hf : f [] = [])
    (pl : Int) :
    ∀ (fuel : Nat) (url : Option Val) (count : Nat),
      ((iterPagesAux s pl fuel url count).1.flatMap (fun p => f p.1)
         = (iterPagesAux sR pl fuel url count).1.flatMap (fun p => f p.1))
      ∧ ((iterPagesAux s pl fuel url count).2 = .crash
          ↔ (iterPagesAux sR pl fuel url count).2 = .crash)
      ∧ ((iterPagesAux s pl fuel url count).2 = .fuelOut
          ↔ (iterPagesAux sR pl fuel url count).2 = .fuelOut) := by
  intro fuel
  induction fuel with
  | zero =>
    intro url count
    simp [iterPagesAux]
  | succ fuel ih =>
    intro url count
    by_cases hceil : pl ≠ 0 ∧ pl ≤ (count : Int)
    · simp [iterPagesAux, hceil]
    · by_cases hurl : url = c
      · subst hurl
        simp [iterPagesAux, hceil, hfail, hrepl, hf, getAttr, truthy, lookupField]
      · have hfc : fetch_conversation_page sR url = fetch_conversation_page s url := by
          unfold fetch_conversation_page
          rw [hagree url hurl]
        cases hout : fetch_conversation_page s url with
        | crash => simp [iterPagesAux, hceil, hout, hfc]
        | failure => simp [iterPagesAux, hceil, hout, hfc]
        | success data paging =>
          cases hga : getAttr paging "next" with
          | none => simp [iterPagesAux, hceil, hout, hfc, hga]
          | some nextVal =>
            by_cases htr : truthy (nextVal.getD .null) = true
            · obtain ⟨ihf, ihc, ihfu⟩ := ih (some (nextVal.getD .null)) (count + 1)
              simp [iterPagesAux, hceil, hout, hfc, hga, htr, ihf, ihc, ihfu]
            · simp [iterPagesAux, hceil, hout, hfc, hga, htr]

theorem iter_enriched_asc_crash (server : Server) (pl : Int) (fuel : Nat)
    (h : (iter_conversation_pages server pl fuel).2 = .crash) :
    iter_enriched_messages server "asc" pl fuel = ([], .crash) := by
  unfold iter_enriched_messages
  rw [if_pos rfl]
  rcases hE : iter_conversation_pages server pl fuel with ⟨pgs, r⟩
  rw [hE] at h
  have hr : r = .crash := h
  subst hr
  rfl

theorem iter_enriched_asc_fuelOut (server : Server) (pl : Int) (fuel : Nat)
    (h : (iter_conversation_pages server pl fuel).2 = .fuelOut) :
    iter_enriched_messages server "asc" pl fuel = ([], .fuelOut) := by
  unfold iter_enriched_messages
  rw [if_pos rfl]
  rcases hE : iter_conversation_pages server pl fuel with ⟨pgs, r⟩
  rw [hE] at h
  have hr : r = .fuelOut := h
  subst hr
  rfl

theorem iter_enriched_not_asc_eq (server : Server) (order : String) (pl : Int)
    (fuel : Nat) (h : order ≠ "asc") :
    iter_enriched_messages server order pl fuel
      = (pageLocalDescOutput (iter_conversation_pages server pl fuel).1,
         (iter_conversation_pages server pl fuel).2) := by
  unfold iter_enriched_messages
  rw [if_neg h, descPagesOutput_eq]

/-- C5 counterexample: not every Page Fetcher failure outcome is treated
like "no more data" — a 200 JSON payload whose `messages` member is not
a mapping makes `fetch_conversation_page` raise (`container.get` on a
non-mapping), and the exception propagates out of the traversal
(`crash`), unlike a network failure (`failure`) or a well-formed empty
final page (`noNext`). -/
theorem payload_shape_crashes_traversal :
    fetch_conversation_page shapeServer none = .crash
    ∧ (iter_enriched_messages shapeServer "desc" 0 5).2 = .crash
    ∧ (iter_enriched_messages failServer "desc" 0 5).2 = .failure
    ∧ (iter_enriched_messages emptyBodyServer "desc" 0 5).2 = .noNext :=
  ⟨rfl, rfl, rfl, rfl⟩

/-- C5 amended: transport-level failures — network errors, non-2xx
responses, and non-JSON bodies, i.e. everything `fetch_conversation_page`
turns into `(None, None)` — are treated identically to "no more data":
replacing the failing response by a well-formed empty final page leaves
the yielded message stream unchanged in both modes and introduces no
exception; but a payload whose top level or `messages` member is not a
mapping raises an uncaught exception instead. -/
theorem transport_failure_ends_like_no_more_data (s sR : Server) (c : Option Val)
    (order : String) (pl : Int) (fuel : Nat)
    (hfail : fetch_conversation_page s c = .failure)
    (hrepl : fetch_conversation_page sR c = .success [] (.obj []))
    (hagree : ∀ u, u ≠ c → sR u = s u) :
    (iter_enriched_messages s order pl fuel).1
        = (iter_enriched_messages sR order pl fuel).1
    ∧ ((iter_enriched_messages s order pl fuel).2 = .crash
        ↔ (iter_enriched_messages sR order pl fuel).2 = .crash) := by
  by_cases horder : order = "asc"
  · subst horder
    obtain ⟨hflat, hcr, hfu⟩ := iterPagesAux_failure_like_empty s sR c hfail hrepl hagree
      normalizePage rfl pl fuel none 0
    by_cases h1 : (iter_conversation_pages s pl fuel).2 = .crash
    · have h2 : (iter_conversation_pages sR pl fuel).2 = .crash := hcr.mp h1
      rw [iter_enriched_asc_crash s pl fuel h1, iter_enriched_asc_crash sR pl fuel h2]
      exact ⟨rfl, Iff.rfl⟩
    · by_cases h1f : (iter_conversation_pages s pl fuel).2 = .fuelOut
      · have h2f : (iter_conversation_pages sR pl fuel).2 = .fuelOut := hfu.mp h1f
        rw [iter_enriched_asc_fuelOut s pl fuel h1f, iter_enriched_asc_fuelOut sR pl fuel h2f]
        exact ⟨rfl, Iff.rfl⟩
      · have h2 : ¬ (iter_conversation_pages sR pl fuel).2 = .crash :=
          fun hx => h1 (hcr.mpr hx)
        have h2f : ¬ (iter_conversation_pages sR pl fuel).2 = .fuelOut :=
          fun hx => h1f (hfu.mpr hx)
        rw [iter_enriched_asc_eq s pl fuel h1 h1f, iter_enriched_asc_eq sR pl fuel h2 h2f]
        exact ⟨congrArg sortAsc hflat, hcr⟩
  · rw [iter_enriched_not_asc_eq s order pl fuel horder,
      iter_enriched_not_asc_eq sR order pl fuel horder]
    obtain ⟨hflat, hcr, hfu⟩ := iterPagesAux_failure_like_empty s sR c hfail hrepl hagree
      (fun l => sortDesc (normalizePage l)) rfl pl fuel none 0
    exact ⟨hflat, hcr⟩

/-- C5 witness: a first-page network failure yields the same (empty)
stream as a well-formed empty final page, with no exception either
way. -/
theorem transport_failure_ends_like_no_more_data_witness :
    fetch_conversation_page failServer none = .failure
    ∧ fetch_conversation_page emptyBodyServer none = .success [] (.obj [])
    ∧ (iter_enriched_messages failServer "desc" 0 5).1
        = (iter_enriched_messages emptyBodyServer "desc" 0 5).1
    ∧ ((iter_enriched_messages failServer "desc" 0 5).2 = .crash
        ↔ (iter_enriched_messages emptyBodyServer "desc" 0 5).2 = .crash) := by
  obtain ⟨h1, h2⟩ := transport_failure_ends_like_no_more_data failServer emptyBodyServer
    none "desc" 0 5 rfl rfl
    (fun u hu =>
      match u, hu with
      | none, hu => absurd rfl hu
      | some v, _ => rfl)
  exact ⟨rfl, rfl, h1, h2⟩
